import Mathlib

/-!
Shallow embedding of the store-data synchronization core of the
Via-Explorer server: the app data model (`AppType`), the merge of
fetched store metadata into a stored record, the staleness-gated
on-demand refresh in `getAppController`, and the batched bulk sync
loop of `updateAllAppsFromStore`.
-/

/-- Embeds `appBuildVersionType` from `app.types.ts`. -/
structure AppBuildVersion where
  version : String
  link : String
deriving Repr, DecidableEq

/-- Embeds `AppType` from `app.types.ts`, together with the extra
fields the sync code reads and writes (`iosAppId`, `androidAppId`,
`iosBundleId`, `iosCurrentVersionReleaseDate`,
`androidCurrentVersionReleaseDate`).  Optional fields are `Option`;
absent (`undefined`) is `none`.  `lastStoreUpdate` is a millisecond
epoch timestamp (`moment.now()`). -/
structure AppType where
  id : String
  name : String
  queryName : Option String
  env : String
  tenant : String
  city : String
  country : String
  region : String
  iosAppId : Option String
  androidAppId : Option String
  iosVersion : Option String
  iosLink : Option String
  iosRelease : Option String
  iosFolder : Option String
  iosBuilds : Option (List AppBuildVersion)
  iosScreenshots : Option (List String)
  iosBundleId : Option String
  iosCurrentVersionReleaseDate : Option String
  androidVersion : Option String
  androidRelease : Option String
  androidFolder : Option String
  androidLink : Option String
  androidBuilds : Option (List AppBuildVersion)
  androidScreenshots : Option (List String)
  androidCurrentVersionReleaseDate : Option String
  languages : Option (List String)
  colorSpecs : Option String
  figmaAppName : Option String
  webAppFigmaLink : Option String
  webAppLink : Option String
  lastStoreUpdate : Option Nat
  imageUrl : Option String
  pso : Option String
  psm : Option String
deriving Repr, DecidableEq

/-- The fields of an iTunes search result that the sync code reads
(`appStoreData` in `updateAllAppsFromStore` and `getAppController`).
The response object is untyped (`any`), so every field may be absent. -/
structure IosMeta where
  artworkUrl512 : Option String
  bundleId : Option String
  trackViewUrl : Option String
  version : Option String
  releaseDate : Option String
  screenshotUrls : Option (List String)
  currentVersionReleaseDate : Option String
  languageCodesISO2A : Option (List String)
deriving Repr, DecidableEq

/-- The fields of a google-play-scraper app-details result that the
sync code reads (`playStoreData`).  `updated` is a millisecond epoch
timestamp when present. -/
structure AndroidMeta where
  icon : Option String
  url : Option String
  version : Option String
  screenshots : Option (List String)
  updated : Option Int
deriving Repr, DecidableEq

/-- JavaScript runtime errors raised inside the merge assignments:
`TypeError` from calling `.split` on `undefined`, `RangeError` from
`Date.prototype.toISOString` on an invalid `Date`. -/
inductive JsError where
  | typeError
  | rangeError
deriving Repr, DecidableEq

/-- JavaScript truthiness test `!x` for an optional string field:
falsy iff the field is absent or the empty string. -/
def jsFalsy (o : Option String) : Bool :=
  match o with
  | none => true
  | some s => s == ""

/-- Embeds `x.split("T")[0]` applied to a possibly-absent string
field: on `undefined` the `.split` call raises a `TypeError`; on a
string it yields the prefix before the first `"T"`. -/
def jsSplitT (o : Option String) : Except JsError String :=
  match o with
  | none => .error .typeError
  | some s => .ok (String.mk (s.toList.takeWhile (fun c => c ≠ 'T')))

/-- Maximum magnitude (in ms) of a valid JavaScript `Date`;
`new Date(ms).toISOString()` throws a `RangeError` beyond it. -/
def jsDateMaxMs : Nat := 8640000000000000

/-- Calendar date (year, month, day) of a day number counted from
1970-01-01, the standard civil-from-days conversion used to model
`Date.prototype.toISOString`'s date part. -/
def civilFromDays (z0 : Int) : Int × Nat × Nat :=
  let z := z0 + 719468
  let era : Int := Int.fdiv z 146097
  let doe : Nat := (z - era * 146097).toNat
  let yoe : Nat := (doe - doe / 1460 + doe / 36524 - doe / 146096) / 365
  let y : Int := (yoe : Int) + era * 400
  let doy : Nat := doe - (365 * yoe + yoe / 4 - yoe / 100)
  let mp : Nat := (5 * doy + 2) / 153
  let d : Nat := doy - (153 * mp + 2) / 5 + 1
  let m : Nat := if mp < 10 then mp + 3 else mp - 9
  (if m ≤ 2 then y + 1 else y, m, d)

/-- Left-pads the decimal form of `n` with zeros to width `w`. -/
def padNat (w : Nat) (n : Nat) : String :=
  let s := toString n
  String.mk (List.replicate (w - s.length) '0') ++ s

/-- Formats a civil date the way `toISOString` renders its date part
(four-digit years; expanded six-digit form outside 0000..9999). -/
def isoDateFormat : Int × Nat × Nat → String
  | (y, m, d) =>
    let ys :=
      if 0 ≤ y ∧ y ≤ 9999 then padNat 4 y.toNat
      else if y < 0 then "-" ++ padNat 6 (-y).toNat
      else "+" ++ padNat 6 y.toNat
    ys ++ "-" ++ padNat 2 m ++ "-" ++ padNat 2 d

/-- Embeds `new Date(x).toISOString().split("T")[0]` for a
possibly-absent millisecond timestamp `x`: absent (`undefined`) or
out-of-range input makes the `Date` invalid and `toISOString` raises
a `RangeError`; otherwise the result is the UTC calendar date. -/
def jsDateToISODate (o : Option Int) : Except JsError String :=
  match o with
  | none => .error .rangeError
  | some ms =>
    if ms.natAbs > jsDateMaxMs then .error .rangeError
    else .ok (isoDateFormat (civilFromDays (Int.fdiv ms 86400000)))

/-- The iOS branch of the merge (`if (appStoreData) { ... }` in
`updateAllAppsFromStore` and `getAppController`): overwrites the iOS
enrichment fields and stamps `lastStoreUpdate := now`; raises if a
date field to be `.split` is absent. -/
def applyIosData (app : AppType) (m : IosMeta) (now : Nat) :
    Except JsError AppType :=
  match jsSplitT m.releaseDate, jsSplitT m.currentVersionReleaseDate with
  | .error e, _ => .error e
  | .ok _, .error e => .error e
  | .ok rel, .ok cur =>
    .ok { app with
      imageUrl := m.artworkUrl512
      iosBundleId := m.bundleId
      iosLink := m.trackViewUrl
      lastStoreUpdate := some now
      iosVersion := m.version
      iosRelease := some rel
      iosScreenshots := m.screenshotUrls
      iosCurrentVersionReleaseDate := some cur
      languages := m.languageCodesISO2A }

/-- The Android branch of the merge (`if (playStoreData) { ... }`):
overwrites the Android enrichment fields, writes `imageUrl` only when
it is falsy at this point, stamps `lastStoreUpdate := now`; raises if
the `updated` timestamp does not convert. -/
def applyAndroidData (app : AppType) (g : AndroidMeta) (now : Nat) :
    Except JsError AppType :=
  match jsDateToISODate g.updated with
  | .error e => .error e
  | .ok upd =>
    .ok { app with
      imageUrl := if jsFalsy app.imageUrl then g.icon else app.imageUrl
      androidLink := g.url
      androidVersion := g.version
      lastStoreUpdate := some now
      androidScreenshots := g.screenshots
      androidCurrentVersionReleaseDate := some upd }

/-- The merge of one stored record with the two platform lookup
results, as performed inline by both `updateAllAppsFromStore`
(part_004 lines 238-264) and `getAppController` (lines 66-90): the
iOS branch runs first, then the Android branch.  An error models a
thrown JavaScript exception, in which case no record is produced
(the surrounding try/catch prevents any persistence). -/
def mergeStoreData (app : AppType) (ios : Option IosMeta)
    (android : Option AndroidMeta) (now : Nat) : Except JsError AppType :=
  match (match ios with
         | none => Except.ok app
         | some m => applyIosData app m now) with
  | .error e => .error e
  | .ok app1 =>
    match android with
    | none => .ok app1
    | some g => applyAndroidData app1 g now

/-- JavaScript truthiness test `!x` for the optional numeric
`lastStoreUpdate` field: falsy iff absent or zero. -/
def jsNumFalsy (o : Option Nat) : Bool :=
  match o with
  | none => true
  | some t => t == 0

/-- Embeds `moment().diff(moment(item.lastStoreUpdate), "minutes")`:
the difference in whole minutes, truncated toward zero (moment's
`absFloor`); `moment(undefined)` is the current instant. -/
def momentDiffMinutes (now : Nat) (lsu : Option Nat) : Int :=
  Int.tdiv ((now : Int) - (match lsu with
                           | none => (now : Int)
                           | some t => (t : Int))) 60000

/-- The staleness gate of `getAppController`:
`diff >= TIME_TO_UPDATE_APP_FROM_STORE_IN_MIN || !item.lastStoreUpdate`. -/
def shouldRefresh (now : Nat) (lsu : Option Nat) (T : Int) : Bool :=
  decide (momentDiffMinutes now lsu ≥ T) || jsNumFalsy lsu

/-- Embeds `getConfigValue` from `configurations.utils.ts`: looks the
key up in the fetched configuration list and falls back to the given
default when the item is absent. -/
def getConfigValue {α : Type} (configurations : List (String × α))
    (key : String) (defaultValue : α) : α :=
  match configurations.find? (fun config => config.1 == key) with
  | some configItem => configItem.2
  | none => defaultValue

/-- Embeds `searchAppInStore` from `app.validations.ts`: the external
call either yields a result (found metadata or a not-found `null`) or
throws; the internal catch turns every thrown error into `null`, so
transport errors and not-found are indistinguishable to the caller. -/
def searchAppInStore {μ : Type} (outcome : Except String (Option μ)) :
    Option μ :=
  match outcome with
  | .ok m => m
  | .error _ => none

/-- HTTP outcome of `getAppController`. -/
inductive HttpOutcome where
  | ok200 (data : AppType)
  | notFound404
  | err500
deriving Repr, DecidableEq

/-- Observable effects of one `getAppController` request:
the response, how many `searchAppInStore` calls were made, and the
records passed to `appService.addNewApp` (a full put). -/
structure GetAppResult where
  response : HttpOutcome
  storeLookups : Nat
  puts : List AppType
deriving Repr, DecidableEq

/-- Embeds `getAppController` from `app.controllers.ts` (lines
39-106).  External inputs are made explicit: the repository read, the
two store-lookup outcomes, the outcome of the `addNewApp` put, the
wall clock `now`, and the configured staleness threshold `T`.  A
thrown merge or put lands in the catch-all, which responds 500. -/
def getAppController (item? : Option AppType)
    (iosOutcome : Except String (Option IosMeta))
    (androidOutcome : Except String (Option AndroidMeta))
    (putResult : Except String Unit) (now : Nat) (T : Int) : GetAppResult :=
  match item? with
  | none => ⟨.notFound404, 0, []⟩
  | some item =>
    if shouldRefresh now item.lastStoreUpdate T then
      let appStoreData := searchAppInStore iosOutcome
      let playStoreData := searchAppInStore androidOutcome
      match mergeStoreData item appStoreData playStoreData now with
      | .error _ => ⟨.err500, 2, []⟩
      | .ok merged =>
        match putResult with
        | .error _ => ⟨.err500, 2, [merged]⟩
        | .ok _ => ⟨.ok200 merged, 2, [merged]⟩
    else ⟨.ok200 item, 0, []⟩

/-- One pass of the per-app step of the sync pipeline at the level of
the persisted record: lookups, merge, put, with the source's per-app
try/catch.  If the merge or the put throws, the repository keeps the
prior record. -/
def persistedAfterPass (stored : AppType)
    (iosOutcome : Except String (Option IosMeta))
    (androidOutcome : Except String (Option AndroidMeta))
    (putResult : Except String Unit) (now : Nat) : AppType :=
  match mergeStoreData stored (searchAppInStore iosOutcome)
      (searchAppInStore androidOutcome) now with
  | .error _ => stored
  | .ok merged =>
    match putResult with
    | .error _ => stored
    | .ok _ => merged

/-- Embeds the batch loop of `updateAllAppsFromStore` (part_004 lines
208-277; the `setIntervalAsync` variant at lines 108-161 produces the
same tick sequence): each tick slices
`allApps.slice(currentIndex, currentIndex + batchSize)`, stops when
the slice is empty, otherwise runs the per-app step on each app of
the slice (each failure caught per app) and re-arms with
`currentIndex += batchSize`.  The value is the log of processed
ticks: for every tick, the apps of its slice paired with their step
outcomes. -/
def processBatch {α ε β : Type} (allApps : List α) (batchSize : Nat)
    (step : α → Except ε β) (currentIndex : Nat) :
    List (List (α × Except ε β)) :=
  let appsToUpdate := (allApps.drop currentIndex).take batchSize
  if _h : appsToUpdate.length = 0 then []
  else
    (appsToUpdate.map (fun app => (app, step app))) ::
      processBatch allApps batchSize step (currentIndex + batchSize)
termination_by allApps.length - currentIndex
decreasing_by
  simp only [appsToUpdate, List.length_take, List.length_drop] at _h
  omega

/-- The slices of the snapshot that the batch loop processes, tick by
tick: the shape of `processBatch` with the step outcomes erased. -/
def batchSlices {α : Type} (allApps : List α) (batchSize : Nat)
    (currentIndex : Nat) : List (List α) :=
  let appsToUpdate := (allApps.drop currentIndex).take batchSize
  if _h : appsToUpdate.length = 0 then []
  else appsToUpdate :: batchSlices allApps batchSize (currentIndex + batchSize)
termination_by allApps.length - currentIndex
decreasing_by
  simp only [appsToUpdate, List.length_take, List.length_drop] at _h
  omega

/-- The value of `currentIndex` when the batch loop of
`updateAllAppsFromStore` stops: each processed tick executes
`currentIndex += batchSize`. -/
def finalCursor {α : Type} (allApps : List α) (batchSize : Nat)
    (currentIndex : Nat) : Nat :=
  let appsToUpdate := (allApps.drop currentIndex).take batchSize
  if _h : appsToUpdate.length = 0 then currentIndex
  else finalCursor allApps batchSize (currentIndex + batchSize)
termination_by allApps.length - currentIndex
decreasing_by
  simp only [appsToUpdate, List.length_take, List.length_drop] at _h
  omega

/-- The repository updates that succeeded during a run: the payloads
of the `updateMultipleApps([app])` calls whose step did not throw. -/
def succeededUpdates {α ε β : Type}
    (log : List (List (α × Except ε β))) : List β :=
  (log.flatten.map Prod.snd).filterMap Except.toOption

deriving instance DecidableEq for Except

/-- A concrete catalog record used by the concrete-input theorems:
store-linked, with no enrichment yet. -/
def sampleApp : AppType where
  id := "app-1"
  name := "Via Explorer"
  queryName := none
  env := "production"
  tenant := "TenantA"
  city := "New York"
  country := "USA"
  region := "NA"
  iosAppId := some "123456"
  androidAppId := some "com.via.app"
  iosVersion := none
  iosLink := none
  iosRelease := none
  iosFolder := none
  iosBuilds := none
  iosScreenshots := none
  iosBundleId := none
  iosCurrentVersionReleaseDate := none
  androidVersion := none
  androidRelease := none
  androidFolder := none
  androidLink := none
  androidBuilds := none
  androidScreenshots := none
  androidCurrentVersionReleaseDate := none
  languages := none
  colorSpecs := none
  figmaAppName := none
  webAppFigmaLink := none
  webAppLink := none
  lastStoreUpdate := none
  imageUrl := none
  pso := none
  psm := none

/-- Well-formed iOS store metadata used by concrete-input theorems. -/
def goodIosMeta : IosMeta where
  artworkUrl512 := some "https://img.example/ios.png"
  bundleId := some "com.via.ios"
  trackViewUrl := some "https://apps.example/via"
  version := some "2.0"
  releaseDate := some "2024-01-01T00:00:00Z"
  screenshotUrls := some ["https://img.example/s1.png"]
  currentVersionReleaseDate := some "2024-02-01T00:00:00Z"
  languageCodesISO2A := some ["EN"]

/-- iOS store metadata in which `releaseDate` is absent, as the
untyped iTunes search response may deliver: the merge's `.split`
call then throws a `TypeError`. -/
def noReleaseDateIosMeta : IosMeta where
  artworkUrl512 := some "https://img.example/ios.png"
  bundleId := some "com.via.ios"
  trackViewUrl := some "https://apps.example/via"
  version := some "2.0"
  releaseDate := none
  screenshotUrls := none
  currentVersionReleaseDate := none
  languageCodesISO2A := none

/-- Well-formed Android store metadata used by concrete-input
theorems. -/
def goodAndroidMeta : AndroidMeta where
  icon := some "https://img.example/android.png"
  url := some "https://play.example/via"
  version := some "2.1"
  screenshots := some ["https://img.example/t1.png"]
  updated := some 0

/-- The record obtained by merging `sampleApp` with both concrete
metadata objects at time 42 (iOS branch first, then Android). -/
def sampleMergedApp : AppType :=
  { sampleApp with
    imageUrl := some "https://img.example/ios.png"
    iosBundleId := some "com.via.ios"
    iosLink := some "https://apps.example/via"
    lastStoreUpdate := some 42
    iosVersion := some "2.0"
    iosRelease := some "2024-01-01"
    iosScreenshots := some ["https://img.example/s1.png"]
    iosCurrentVersionReleaseDate := some "2024-02-01"
    languages := some ["EN"]
    androidLink := some "https://play.example/via"
    androidVersion := some "2.1"
    androidScreenshots := some ["https://img.example/t1.png"]
    androidCurrentVersionReleaseDate := some "1970-01-01" }

/-- A concrete record already enriched once, at time 100. -/
def storedApp : AppType := { sampleApp with lastStoreUpdate := some 100 }

/-- A merge with both lookups empty is the identity on the record. -/
theorem mergeStoreData_none_none (app : AppType) (now : Nat) :
    mergeStoreData app none none now = .ok app := rfl

/-- On success, the merged record's `lastStoreUpdate` is the current
time when at least one platform delivered metadata, and the stored
value otherwise. -/
theorem mergeStoreData_lastStoreUpdate (app : AppType) (ios : Option IosMeta)
    (android : Option AndroidMeta) (now : Nat) (res : AppType)
    (h : mergeStoreData app ios android now = .ok res) :
    res.lastStoreUpdate =
      if ios.isSome || android.isSome then some now
      else app.lastStoreUpdate := by
  cases ios with
  | none =>
    cases android with
    | none =>
      rw [mergeStoreData_none_none] at h
      simp only [Except.ok.injEq] at h
      subst h
      rfl
    | some g =>
      simp only [mergeStoreData, applyAndroidData] at h
      cases hd : jsDateToISODate g.updated with
      | error e => rw [hd] at h; simp at h
      | ok upd =>
        rw [hd] at h
        simp only [Except.ok.injEq] at h
        subst h
        rfl
  | some m =>
    simp only [mergeStoreData, applyIosData] at h
    cases hr : jsSplitT m.releaseDate with
    | error e => rw [hr] at h; simp at h
    | ok rel =>
      cases hc : jsSplitT m.currentVersionReleaseDate with
      | error e => rw [hr, hc] at h; simp at h
      | ok cur =>
        rw [hr, hc] at h
        cases android with
        | none =>
          simp only [Except.ok.injEq] at h
          subst h
          rfl
        | some g =>
          simp only [applyAndroidData] at h
          cases hd : jsDateToISODate g.updated with
          | error e => rw [hd] at h; simp at h
          | ok upd =>
            rw [hd] at h
            simp only [Except.ok.injEq] at h
            subst h
            rfl

/-- C6: Not-found no-op of the merge: for every record, merging with
both platform lookups yielding no metadata returns a record equal to
the input in every field, including `lastStoreUpdate` — no partial
overwrite. -/
theorem merge_notfound_noop (app : AppType) (now : Nat) :
    mergeStoreData app none none now = .ok app :=
  mergeStoreData_none_none app now

/-- C5: iOS-first precedence for `imageUrl`: a record with no
`imageUrl` merged with both platforms' metadata (the iOS metadata
carrying an artwork URL) ends up with the iOS artwork URL, whatever
the Android icon is; and an Android-only merge never overwrites a
non-falsy `imageUrl` (first-writer-wins, iOS branch first). -/
theorem ios_image_precedence :
    (∀ (app : AppType) (m : IosMeta) (g : AndroidMeta) (now : Nat)
        (u : String) (app' : AppType),
        jsFalsy app.imageUrl = true →
        m.artworkUrl512 = some u → u ≠ "" →
        mergeStoreData app (some m) (some g) now = .ok app' →
        app'.imageUrl = some u)
    ∧
    (∀ (app : AppType) (g : AndroidMeta) (now : Nat) (app' : AppType),
        jsFalsy app.imageUrl = false →
        mergeStoreData app none (some g) now = .ok app' →
        app'.imageUrl = app.imageUrl) := by
  constructor
  · intro app m g now u app' hfalsy hart hu hmerge
    simp only [mergeStoreData, applyIosData] at hmerge
    cases hr : jsSplitT m.releaseDate with
    | error e => rw [hr] at hmerge; simp at hmerge
    | ok rel =>
      cases hc : jsSplitT m.currentVersionReleaseDate with
      | error e => rw [hr, hc] at hmerge; simp at hmerge
      | ok cur =>
        rw [hr, hc] at hmerge
        simp only [applyAndroidData] at hmerge
        cases hd : jsDateToISODate g.updated with
        | error e => rw [hd] at hmerge; simp at hmerge
        | ok upd =>
          rw [hd] at hmerge
          simp only [Except.ok.injEq] at hmerge
          subst hmerge
          simp [hart, jsFalsy, hu]
  · intro app g now app' hfalsy hmerge
    simp only [mergeStoreData, applyAndroidData] at hmerge
    cases hd : jsDateToISODate g.updated with
    | error e => rw [hd] at hmerge; simp at hmerge
    | ok upd =>
      rw [hd] at hmerge
      simp only [Except.ok.injEq] at hmerge
      subst hmerge
      simp [hfalsy]

/-- Ceiling-division step: one processed batch accounts for one tick. -/
theorem ceil_div_step (a B : Nat) (ha : 1 ≤ a) (hB : 1 ≤ B) :
    (a + (B - 1)) / B = ((a - B) + (B - 1)) / B + 1 := by
  rcases le_or_lt B a with hba | hba
  · have h : a + (B - 1) = ((a - B) + (B - 1)) + B := by omega
    rw [h, Nat.add_div_right _ (by omega)]
  · have h1 : a - B = 0 := by omega
    have h2 : a + (B - 1) = (a - 1) + B := by omega
    rw [h1, h2, Nat.add_div_right _ (by omega), Nat.zero_add,
      Nat.div_eq_of_lt (by omega), Nat.div_eq_of_lt (by omega)]

/-- The processed slices, concatenated in tick order, are exactly the
portion of the snapshot from the starting cursor on. -/
theorem batchSlices_flatten {α : Type} (allApps : List α) (B : Nat)
    (hB : 1 ≤ B) : ∀ i, (batchSlices allApps B i).flatten = allApps.drop i := by
  intro i
  induction i using batchSlices.induct allApps B with
  | case1 x s h =>
    rw [batchSlices]
    simp only [dif_pos h]
    simp only [s, List.length_take, List.length_drop] at h
    have hd : allApps.length ≤ x := by omega
    rw [List.drop_eq_nil_of_le hd]
    rfl
  | case2 x s h ih =>
    rw [batchSlices]
    simp only [dif_neg h]
    rw [List.flatten_cons, ih]
    rw [← List.drop_drop, List.take_append_drop]

/-- The number of processed ticks is the ceiling of the number of
remaining apps over the batch size. -/
theorem batchSlices_length {α : Type} (allApps : List α) (B : Nat)
    (hB : 1 ≤ B) :
    ∀ i, (batchSlices allApps B i).length = (allApps.length - i + (B - 1)) / B := by
  intro i
  induction i using batchSlices.induct allApps B with
  | case1 x s h =>
    rw [batchSlices]
    simp only [dif_pos h]
    simp only [s, List.length_take, List.length_drop] at h
    have hx : allApps.length - x = 0 := by omega
    rw [hx, List.length_nil, Nat.zero_add, Nat.div_eq_of_lt (by omega)]
  | case2 x s h ih =>
    rw [batchSlices]
    simp only [dif_neg h]
    simp only [s, List.length_take, List.length_drop] at h
    rw [List.length_cons, ih]
    have ha : 1 ≤ allApps.length - x := by omega
    have harr : allApps.length - (x + B) = (allApps.length - x) - B := by omega
    rw [harr]
    exact (ceil_div_step (allApps.length - x) B ha hB).symm

/-- Projecting the app out of each logged pair recovers the slice. -/
theorem map_fst_pair {α ε β : Type} (step : α → Except ε β) :
    ∀ l : List α, (l.map (fun app => (app, step app))).map Prod.fst = l := by
  intro l
  induction l with
  | nil => rfl
  | cons a t ih => simp [ih]

/-- The per-tick schedule (which apps are processed in which tick) of
the batch loop, with the step outcomes erased, is `batchSlices`; in
particular it does not depend on the step function at all. -/
theorem processBatch_shape {α ε β : Type} (allApps : List α) (B : Nat)
    (step : α → Except ε β) :
    ∀ i, (processBatch allApps B step i).map (List.map Prod.fst) =
      batchSlices allApps B i := by
  intro i
  induction i using processBatch.induct allApps B step with
  | case1 x s h =>
    rw [processBatch, batchSlices]
    simp only [dif_pos h]
    rfl
  | case2 x s h ih =>
    rw [processBatch, batchSlices]
    simp only [dif_neg h]
    rw [List.map_cons, ih, map_fst_pair]

/-- The cursor the batch loop stops at, written through the tick
count: every processed tick adds `batchSize` to the cursor. -/
theorem finalCursor_eq {α : Type} (allApps : List α) (B : Nat) :
    ∀ i, finalCursor allApps B i = i + B * (batchSlices allApps B i).length := by
  intro i
  induction i using batchSlices.induct allApps B with
  | case1 x s h =>
    rw [finalCursor, batchSlices]
    simp only [dif_pos h]
    rfl
  | case2 x s h ih =>
    rw [finalCursor, batchSlices]
    simp only [dif_neg h]
    rw [ih, List.length_cons]
    ring

/-- C1: Batch completeness of the bulk-sync scheduler: for every
snapshot and every positive batch size, the per-app step is invoked
on each snapshot app exactly once and in snapshot order (the
concatenation of the apps of the processed ticks is the snapshot
itself), spread over exactly ⌈N/B⌉ processed ticks. -/
theorem batch_completeness {α ε β : Type} (allApps : List α) (B : Nat)
    (step : α → Except ε β) (hB : 1 ≤ B) :
    ((processBatch allApps B step 0).map (List.map Prod.fst)).flatten =
      allApps ∧
    (processBatch allApps B step 0).length =
      (allApps.length + (B - 1)) / B := by
  constructor
  · rw [processBatch_shape, batchSlices_flatten allApps B hB 0, List.drop_zero]
  · have h := congrArg List.length (processBatch_shape allApps B step 0)
    rw [List.length_map] at h
    rw [h, batchSlices_length allApps B hB 0, Nat.sub_zero]

/-- Witness for C1 at a concrete snapshot of five apps and batch
size two: three ticks, every app once, in order. -/
theorem batch_completeness_witness :
    (((processBatch [10, 20, 30, 40, 50] 2
        (fun n => (Except.ok n : Except Unit Nat)) 0).map
          (List.map Prod.fst)).flatten = [10, 20, 30, 40, 50]) ∧
    (processBatch [10, 20, 30, 40, 50] 2
        (fun n => (Except.ok n : Except Unit Nat)) 0).length = 3 :=
  batch_completeness [10, 20, 30, 40, 50] 2
    (fun n => (Except.ok n : Except Unit Nat)) (by decide)

/-- C2: Per-item failure isolation in a batch: in a batch of three
apps whose middle step throws, the step still runs for the first and
third app, their logged outcomes (hence their persisted updates) are
exactly their own step results, the loop reaches the end of the
slice, and — in general — the schedule of ticks does not depend on
the step outcomes at all, so a failure never cancels later ticks. -/
theorem batch_failure_isolation :
    (∀ {α ε β : Type} (a1 a2 a3 : α) (step : α → Except ε β)
        (r1 r3 : β) (e : ε),
        step a1 = .ok r1 → step a2 = .error e → step a3 = .ok r3 →
        processBatch [a1, a2, a3] 100 step 0 =
          [[(a1, .ok r1), (a2, .error e), (a3, .ok r3)]] ∧
        succeededUpdates (processBatch [a1, a2, a3] 100 step 0) = [r1, r3])
    ∧
    (∀ {α ε β : Type} (allApps : List α) (B i : Nat)
        (step stepAlt : α → Except ε β),
        (processBatch allApps B step i).map (List.map Prod.fst) =
          (processBatch allApps B stepAlt i).map (List.map Prod.fst)) := by
  constructor
  · intro α ε β a1 a2 a3 step r1 r3 e h1 h2 h3
    have hlog : processBatch [a1, a2, a3] 100 step 0 =
        [[(a1, .ok r1), (a2, .error e), (a3, .ok r3)]] := by
      rw [processBatch]
      norm_num
      rw [processBatch]
      norm_num [h1, h2, h3]
    exact ⟨hlog, by rw [hlog]; simp [succeededUpdates, Except.toOption]⟩
  · intro α ε β allApps B i step stepAlt
    rw [processBatch_shape, processBatch_shape]

/-- Witness for C2 at a concrete batch: apps 1 and 3 succeed and are
persisted, app 2 throws. -/
theorem batch_failure_isolation_witness :
    processBatch [1, 2, 3] 100
      (fun n => if n = 2 then (Except.error "boom" : Except String Nat)
                else .ok (n * 10)) 0 =
      [[(1, .ok 10), (2, .error "boom"), (3, .ok 30)]] ∧
    succeededUpdates (processBatch [1, 2, 3] 100
      (fun n => if n = 2 then (Except.error "boom" : Except String Nat)
                else .ok (n * 10)) 0) = [10, 30] :=
  batch_failure_isolation.1 1 2 3
    (fun n => if n = 2 then (Except.error "boom" : Except String Nat)
              else .ok (n * 10)) 10 30 "boom" (by decide) (by decide) (by decide)

/-- C7 counterexample: with a snapshot of a single app and the
configured batch size 100, the only slice processed has length 1,
yet the loop advances the cursor to 100, not to the snapshot
length 1: `currentIndex += batchSize` runs, not an advance by the
processed slice length. -/
theorem cursor_overshoot_counterexample :
    finalCursor [(0 : Nat)] 100 0 = 100 ∧ 100 ≠ List.length [(0 : Nat)] := by
  constructor
  · simp [finalCursor]
  · decide

/-- C7 (amended): after every processed slice the cursor advances by
the configured `batchSize` — not by the slice length — so the loop
stops with the cursor at `B * ⌈N/B⌉`, which is at least (and for a
short final slice strictly past) the snapshot length; the next tick
then sees an empty slice, so the run still terminates correctly. -/
theorem cursor_advances_by_batchSize {α : Type} (allApps : List α)
    (B : Nat) (hB : 1 ≤ B) :
    finalCursor allApps B 0 = B * ((allApps.length + (B - 1)) / B) ∧
    allApps.length ≤ finalCursor allApps B 0 := by
  have h1 : finalCursor allApps B 0 =
      B * ((allApps.length + (B - 1)) / B) := by
    rw [finalCursor_eq, batchSlices_length allApps B hB 0, Nat.sub_zero,
      Nat.zero_add]
  refine ⟨h1, ?_⟩
  rw [h1]
  obtain ⟨b, rfl⟩ : ∃ b, B = b + 1 := ⟨B - 1, by omega⟩
  have hd := Nat.div_add_mod (allApps.length + (b + 1 - 1)) (b + 1)
  have hm : (allApps.length + (b + 1 - 1)) % (b + 1) < b + 1 :=
    Nat.mod_lt _ (by omega)
  have hb1 : b + 1 - 1 = b := rfl
  rw [hb1] at hd hm ⊢
  linarith [hd, hm]

/-- Witness for C7 (amended) at a concrete snapshot of three apps
and batch size two: the cursor stops at 4, past the length 3. -/
theorem cursor_advances_by_batchSize_witness :
    finalCursor ([10, 20, 30] : List Nat) 2 0 = 2 * ((3 + (2 - 1)) / 2) ∧
    List.length ([10, 20, 30] : List Nat) ≤
      finalCursor ([10, 20, 30] : List Nat) 2 0 :=
  cursor_advances_by_batchSize ([10, 20, 30] : List Nat) 2 (by decide)

/-- Witness for C5 at concrete inputs: merging a record without
`imageUrl` with both metadata objects yields the iOS artwork. -/
theorem ios_image_precedence_witness :
    jsFalsy sampleApp.imageUrl = true ∧
    mergeStoreData sampleApp (some goodIosMeta) (some goodAndroidMeta) 42 =
      .ok sampleMergedApp ∧
    sampleMergedApp.imageUrl = some "https://img.example/ios.png" := by
  have hm : mergeStoreData sampleApp (some goodIosMeta)
      (some goodAndroidMeta) 42 = .ok sampleMergedApp := by decide
  exact ⟨by decide, hm,
    ios_image_precedence.1 sampleApp goodIosMeta goodAndroidMeta 42
      "https://img.example/ios.png" sampleMergedApp (by decide) (by decide)
      (by decide) hm⟩

/-- The truncated-minute comparison of the staleness gate, reduced to
a linear inequality on milliseconds (for a positive threshold). -/
theorem le_tdiv_60000_iff (d T : Int) (hT : 1 ≤ T) :
    T ≤ Int.tdiv d 60000 ↔ 60000 * T ≤ d := by
  rcases le_or_lt 0 d with hd | hd
  · rw [Int.tdiv_eq_ediv hd (by norm_num),
      Int.le_ediv_iff_mul_le (by norm_num : (0 : Int) < 60000), mul_comm]
  · constructor
    · intro h
      exfalso
      have h2 : Int.tdiv d 60000 ≤ 0 := by
        have hneg : d = -(-d) := by ring
        rw [hneg, Int.neg_tdiv]
        have h3 : 0 ≤ Int.tdiv (-d) 60000 :=
          Int.tdiv_nonneg (by omega) (by norm_num)
        omega
      omega
    · intro h
      exfalso
      nlinarith

/-- The staleness gate opens iff `lastStoreUpdate` is absent or at
least `T` minutes in the past (for a positive threshold and a wall
clock at least `T` minutes past the epoch, which also covers the
gate's extra truthiness test of a zero timestamp). -/
theorem shouldRefresh_iff (now : Nat) (lsu : Option Nat) (T : Int)
    (hT : 1 ≤ T) (hnow : 60000 * T ≤ (now : Int)) :
    shouldRefresh now lsu T = true ↔
      (lsu = none ∨
        ∃ t, lsu = some t ∧ 60000 * T ≤ (now : Int) - (t : Int)) := by
  cases lsu with
  | none => simp [shouldRefresh, jsNumFalsy]
  | some t =>
    simp only [shouldRefresh, momentDiffMinutes, jsNumFalsy,
      Bool.or_eq_true, decide_eq_true_eq, beq_iff_eq, ge_iff_le]
    constructor
    · rintro (h | h)
      · exact Or.inr ⟨t, rfl, (le_tdiv_60000_iff _ T hT).mp h⟩
      · subst h
        exact Or.inr ⟨0, rfl, by simpa using hnow⟩
    · rintro (h | ⟨t2, ht2, h⟩)
      · exact absurd h (by simp)
      · rw [Option.some_inj] at ht2
        subst ht2
        exact Or.inl ((le_tdiv_60000_iff _ T hT).mpr h)

/-- Once the staleness gate is open it stays open at any later wall
clock (for a positive threshold), since `lastStoreUpdate` only ages. -/
theorem shouldRefresh_mono (now now2 : Nat) (lsu : Option Nat) (T : Int)
    (hT : 1 ≤ T) (hle : now ≤ now2)
    (h : shouldRefresh now lsu T = true) :
    shouldRefresh now2 lsu T = true := by
  cases lsu with
  | none => simp [shouldRefresh, jsNumFalsy]
  | some t =>
    simp only [shouldRefresh, momentDiffMinutes, jsNumFalsy,
      Bool.or_eq_true, decide_eq_true_eq, beq_iff_eq, ge_iff_le] at h ⊢
    rcases h with h | h
    · left
      rw [le_tdiv_60000_iff _ T hT] at h ⊢
      have hc : (now : Int) ≤ (now2 : Int) := by exact_mod_cast hle
      omega
    · exact Or.inr h

/-- `getAppController` performs exactly two store lookups when the
staleness gate is open and none otherwise, whatever the lookup,
merge, and put outcomes are. -/
theorem getAppController_storeLookups (item : AppType)
    (iosO : Except String (Option IosMeta))
    (andO : Except String (Option AndroidMeta)) (pr : Except String Unit)
    (now : Nat) (T : Int) :
    (getAppController (some item) iosO andO pr now T).storeLookups =
      if shouldRefresh now item.lastStoreUpdate T then 2 else 0 := by
  by_cases hr : shouldRefresh now item.lastStoreUpdate T = true
  · rw [if_pos hr]
    simp only [getAppController, hr, if_true]
    cases hm : mergeStoreData item (searchAppInStore iosO)
        (searchAppInStore andO) now with
    | error e => rfl
    | ok merged => cases pr <;> rfl
  · have hr2 : shouldRefresh now item.lastStoreUpdate T = false := by
      cases hx : shouldRefresh now item.lastStoreUpdate T
      · rfl
      · exact absurd hx hr
    rw [if_neg hr]
    simp only [getAppController, hr2, Bool.false_eq_true, if_false]

/-- C4: Staleness gate of the on-demand refresh: for a positive
threshold `T` (minutes, taken from configuration with default 60)
and a wall clock at least `T` minutes past the epoch,
`getAppController` performs its two store lookups iff
`lastStoreUpdate` is absent or at least `T` minutes old, and
performs none otherwise; `getConfigValue` yields the default 60
when the threshold is not configured. -/
theorem staleness_gate :
    (∀ (item : AppType) (iosO : Except String (Option IosMeta))
        (andO : Except String (Option AndroidMeta))
        (pr : Except String Unit) (now : Nat) (T : Int),
        1 ≤ T → 60000 * T ≤ (now : Int) →
        (((getAppController (some item) iosO andO pr now T).storeLookups = 2 ↔
            (item.lastStoreUpdate = none ∨
              ∃ t, item.lastStoreUpdate = some t ∧
                60000 * T ≤ (now : Int) - (t : Int))) ∧
          ((getAppController (some item) iosO andO pr now T).storeLookups = 2 ∨
            (getAppController (some item) iosO andO pr now T).storeLookups = 0)))
    ∧ getConfigValue ([] : List (String × Int))
        "TIME_TO_UPDATE_APP_FROM_STORE_IN_MIN" 60 = 60 := by
  constructor
  · intro item iosO andO pr now T hT hnow
    have hsl := getAppController_storeLookups item iosO andO pr now T
    constructor
    · by_cases hr : shouldRefresh now item.lastStoreUpdate T = true
      · rw [hsl, if_pos hr]
        constructor
        · intro _
          exact (shouldRefresh_iff now item.lastStoreUpdate T hT hnow).mp hr
        · intro _
          rfl
      · rw [hsl, if_neg hr]
        constructor
        · intro h02
          exact absurd h02 (by omega)
        · intro hrhs
          exact absurd
            ((shouldRefresh_iff now item.lastStoreUpdate T hT hnow).mpr hrhs) hr
    · rw [hsl]
      by_cases hr : shouldRefresh now item.lastStoreUpdate T = true
      · rw [if_pos hr]
        exact Or.inl rfl
      · rw [if_neg hr]
        exact Or.inr rfl
  · rfl

/-- Witness for C4: at `now` = 6000000000 ms with threshold 60 min, a
record refreshed 30 minutes ago triggers no lookups, and one
refreshed 90 minutes ago triggers both. -/
theorem staleness_gate_witness :
    (getAppController (some { sampleApp with lastStoreUpdate := some 5998200000 })
      (.ok none) (.ok none) (.ok ()) 6000000000 60).storeLookups = 0 ∧
    (getAppController (some { sampleApp with lastStoreUpdate := some 5994600000 })
      (.ok none) (.ok none) (.ok ()) 6000000000 60).storeLookups = 2 := by
  have h := (staleness_gate.1 { sampleApp with lastStoreUpdate := some 5994600000 }
      (.ok none) (.ok none) (.ok ()) 6000000000 60 (by decide) (by decide)).1
  exact ⟨by decide, h.mpr (Or.inr ⟨5994600000, rfl, by decide⟩)⟩

/-- C10: when the on-demand refresh fires and both platform lookups
yield nothing — not-found and transport errors are indistinguishable,
both becoming `null` inside `searchAppInStore` — the unchanged record
is still re-persisted via a full put and returned with status 200,
and `lastStoreUpdate` is not advanced: at every later read time the
staleness gate is still open and both lookups fire again, with no
backoff and no memory of the failure. -/
theorem notfound_refresh_no_backoff (item : AppType)
    (iosO : Except String (Option IosMeta))
    (andO : Except String (Option AndroidMeta)) (now : Nat) (T : Int)
    (hT : 1 ≤ T)
    (hrefresh : shouldRefresh now item.lastStoreUpdate T = true)
    (hios : searchAppInStore iosO = (none : Option IosMeta))
    (hand : searchAppInStore andO = (none : Option AndroidMeta)) :
    (getAppController (some item) iosO andO (.ok ()) now T).response =
      .ok200 item ∧
    (getAppController (some item) iosO andO (.ok ()) now T).puts = [item] ∧
    ∀ now2 : Nat, now ≤ now2 →
      shouldRefresh now2 item.lastStoreUpdate T = true ∧
      (getAppController (some item) iosO andO (.ok ()) now2 T).storeLookups = 2 := by
  have hga : getAppController (some item) iosO andO (.ok ()) now T =
      ⟨.ok200 item, 2, [item]⟩ := by
    simp only [getAppController, hrefresh, if_true, hios, hand,
      mergeStoreData_none_none]
  refine ⟨by rw [hga], by rw [hga], ?_⟩
  intro now2 hle
  have hr2 := shouldRefresh_mono now now2 item.lastStoreUpdate T hT hle hrefresh
  refine ⟨hr2, ?_⟩
  rw [getAppController_storeLookups, if_pos hr2]

/-- Witness for C10: a never-enriched record read while the iOS
lookup suffers a transport error and the Android lookup finds
nothing: 200 with the unchanged record, a full put of the unchanged
record, and at a later read both lookups fire again. -/
theorem notfound_refresh_no_backoff_witness :
    (getAppController (some sampleApp) (.error "ETIMEDOUT") (.ok none)
      (.ok ()) 7000000 60).response = .ok200 sampleApp ∧
    (getAppController (some sampleApp) (.error "ETIMEDOUT") (.ok none)
      (.ok ()) 7000000 60).puts = [sampleApp] ∧
    shouldRefresh 8000000 sampleApp.lastStoreUpdate 60 = true ∧
    (getAppController (some sampleApp) (.error "ETIMEDOUT") (.ok none)
      (.ok ()) 8000000 60).storeLookups = 2 := by
  have h := notfound_refresh_no_backoff sampleApp (.error "ETIMEDOUT")
    (.ok none) 7000000 60 (by decide) (by decide) (by decide) (by decide)
  have h2 := h.2.2 8000000 (by decide)
  exact ⟨h.1, h.2.1, h2.1, h2.2⟩

/-- C3 counterexample: a stale record whose iOS lookup returns a
metadata object lacking `releaseDate` (as the untyped store response
may): the merge step throws, the catch-all answers 500 — the
enrichment failure turns the read into a failed read instead of
responding with the previously-stored record. -/
theorem enrichment_failure_fails_read :
    (getAppController (some sampleApp) (.ok (some noReleaseDateIosMeta))
      (.ok none) (.ok ()) 1000000 60).response = .err500 := by decide

/-- C3 (amended): transport failures of the store lookups are
absorbed inside `searchAppInStore` (they become `null`), so a failed
lookup still yields a 200 response carrying the previously-stored
record; but a failure of the merge step itself propagates to the
catch-all and produces a 500 error response, not the stored record. -/
theorem refresh_failure_semantics :
    (∀ (item : AppType) (e1 e2 : String) (now : Nat) (T : Int),
        shouldRefresh now item.lastStoreUpdate T = true →
        (getAppController (some item) (.error e1) (.error e2) (.ok ())
          now T).response = .ok200 item)
    ∧
    (∀ (item : AppType) (iosO : Except String (Option IosMeta))
        (andO : Except String (Option AndroidMeta)) (pr : Except String Unit)
        (now : Nat) (T : Int) (e : JsError),
        shouldRefresh now item.lastStoreUpdate T = true →
        mergeStoreData item (searchAppInStore iosO) (searchAppInStore andO)
          now = .error e →
        (getAppController (some item) iosO andO pr now T).response =
          .err500) := by
  constructor
  · intro item e1 e2 now T hr
    simp only [getAppController, hr, if_true]
    rfl
  · intro item iosO andO pr now T e hr hm
    simp only [getAppController, hr, if_true, hm]

/-- Witness for C3 (amended): the stored record survives a double
transport failure with a 200, while an iOS metadata object lacking
`releaseDate` produces a 500. -/
theorem refresh_failure_semantics_witness :
    (getAppController (some sampleApp) (.error "ETIMEDOUT")
      (.error "ENOTFOUND") (.ok ()) 999 60).response = .ok200 sampleApp ∧
    (getAppController (some sampleApp) (.ok (some noReleaseDateIosMeta))
      (.ok none) (.ok ()) 999 60).response = .err500 :=
  ⟨refresh_failure_semantics.1 sampleApp "ETIMEDOUT" "ENOTFOUND" 999 60
    (by decide),
   refresh_failure_semantics.2 sampleApp (.ok (some noReleaseDateIosMeta))
    (.ok none) (.ok ()) 999 60 JsError.typeError (by decide) (by decide)⟩

/-- C8 counterexample: a pass whose iOS lookup returns metadata (a
truthy `appStoreData`) but whose merge throws on the absent
`releaseDate`: the persisted record, `lastStoreUpdate` included,
stays unchanged even though a platform lookup returned metadata
during the pass — the claim's "if and only if" fails. -/
theorem lastStoreUpdate_iff_counterexample :
    searchAppInStore (Except.ok (some noReleaseDateIosMeta)) ≠
      (none : Option IosMeta) ∧
    persistedAfterPass storedApp (.ok (some noReleaseDateIosMeta)) (.ok none)
      (.ok ()) 200 = storedApp ∧
    (persistedAfterPass storedApp (.ok (some noReleaseDateIosMeta)) (.ok none)
      (.ok ()) 200).lastStoreUpdate = some 100 :=
  ⟨by decide, by decide, by decide⟩

/-- C8 (amended): `lastStoreUpdate` is monotonically non-decreasing
across passes when the wall clock is (the persisted record keeps
either its old stamp or the current time); on a pass whose merge and
persist succeed it is set to the current time iff at least one
platform lookup returned metadata; and on a pass whose merge throws
the stored record, `lastStoreUpdate` included, is left untouched
even if a lookup returned metadata. -/
theorem lastStoreUpdate_invariant :
    (∀ (stored : AppType) (iosO : Except String (Option IosMeta))
        (andO : Except String (Option AndroidMeta))
        (pr : Except String Unit) (now t t2 : Nat),
        stored.lastStoreUpdate = some t → t ≤ now →
        (persistedAfterPass stored iosO andO pr now).lastStoreUpdate =
          some t2 →
        t ≤ t2)
    ∧
    (∀ (app res : AppType) (ios : Option IosMeta)
        (android : Option AndroidMeta) (now : Nat),
        mergeStoreData app ios android now = .ok res →
        res.lastStoreUpdate =
          if ios.isSome || android.isSome then some now
          else app.lastStoreUpdate)
    ∧
    (∀ (stored : AppType) (iosO : Except String (Option IosMeta))
        (andO : Except String (Option AndroidMeta))
        (pr : Except String Unit) (now : Nat) (e : JsError),
        mergeStoreData stored (searchAppInStore iosO)
          (searchAppInStore andO) now = .error e →
        persistedAfterPass stored iosO andO pr now = stored) := by
  refine ⟨?_, ?_, ?_⟩
  · intro stored iosO andO pr now t t2 hst hle hres
    unfold persistedAfterPass at hres
    cases hm : mergeStoreData stored (searchAppInStore iosO)
        (searchAppInStore andO) now with
    | error e =>
      rw [hm, hst] at hres
      injection hres with h
      omega
    | ok merged =>
      rw [hm] at hres
      cases pr with
      | error e =>
        rw [hst] at hres
        injection hres with h
        omega
      | ok u =>
        have heq := mergeStoreData_lastStoreUpdate stored
          (searchAppInStore iosO) (searchAppInStore andO) now merged hm
        rw [heq] at hres
        by_cases hsome : ((searchAppInStore iosO).isSome ||
            (searchAppInStore andO).isSome) = true
        · rw [if_pos hsome] at hres
          injection hres with h
          omega
        · rw [if_neg hsome, hst] at hres
          injection hres with h
          omega
  · intro app res ios android now hm
    exact mergeStoreData_lastStoreUpdate app ios android now res hm
  · intro stored iosO andO pr now e hm
    unfold persistedAfterPass
    rw [hm]

/-- Witness for C8 (amended): a pass over a record stamped at 100,
read at 150 with both lookups empty: the persisted stamp is still
100, and monotonicity holds. -/
theorem lastStoreUpdate_invariant_witness :
    storedApp.lastStoreUpdate = some 100 ∧
    (persistedAfterPass storedApp (.ok none) (.ok none) (.ok ())
      150).lastStoreUpdate = some 100 ∧
    (100 : Nat) ≤ 100 :=
  ⟨rfl, by decide,
   lastStoreUpdate_invariant.1 storedApp (.ok none) (.ok none) (.ok ())
     150 100 100 rfl (by decide) (by decide)⟩

/-- C9 counterexample: the date normalizations applied by the merge
are not total on what the lookups may deliver: an absent iOS
`releaseDate` makes `.split` throw a `TypeError`, and an absent or
out-of-range Android `updated` timestamp makes `toISOString` throw a
`RangeError`. -/
theorem date_normalization_can_throw :
    jsSplitT none = .error JsError.typeError ∧
    jsDateToISODate none = .error JsError.rangeError ∧
    jsDateToISODate (some 8640000000000001) = .error JsError.rangeError :=
  ⟨rfl, rfl, by decide⟩

/-- C9 (amended): the date normalizations are pure and total on the
well-formed part of their domain — any present string for the iOS
`.split("T")[0]`, and any present timestamp within the JavaScript
`Date` range for the Android conversion — but they throw on an
absent field or an out-of-range timestamp, in which case the per-app
try/catch skips that record's update for the pass. -/
theorem date_normalization_total_on_present :
    (∀ s : String, (jsSplitT (some s)).isOk = true) ∧
    (∀ ms : Int, ms.natAbs ≤ jsDateMaxMs →
      (jsDateToISODate (some ms)).isOk = true) := by
  constructor
  · intro s
    rfl
  · intro ms h
    simp only [jsDateToISODate]
    rw [if_neg (by omega)]
    rfl

/-- Witness for C9 (amended) at a concrete timestamp string and the
largest representable `Date` value. -/
theorem date_normalization_total_witness :
    (8640000000000000 : Int).natAbs ≤ jsDateMaxMs ∧
    (jsSplitT (some "2024-05-06T01:02:03Z")).isOk = true ∧
    (jsDateToISODate (some 8640000000000000)).isOk = true :=
  ⟨by decide, date_normalization_total_on_present.1 "2024-05-06T01:02:03Z",
   date_normalization_total_on_present.2 8640000000000000 (by decide)⟩
